import Mathlib

/-!
Shallow embedding of the CinemaAI content-based movie recommender
(`src/recommender.py`, class `MovieRecommendationSystem`).

Modelling conventions:
* A pandas `DataFrame` row is a `Movie`; the frame itself is a `List Movie`
  (list position = positional index `0..N-1`, the join key with the matrix).
* `self.similarity_matrix` is an `Option (List (List α))`; `none` is the
  explicit "no index" state (`None` in the source).
* numpy floats are modelled exactly, as elements of a `LinearOrderedField`;
  statements about the real pipeline instantiate `α := ℝ` and pass
  `Real.sqrt` for the square root used by `cosine_similarity`
  (`sim[i][j] = dot(v i, v j) / (sqrt |v i|² * sqrt |v j|²)`).
* `np.argsort` (ascending) is modelled as the stable ascending argsort:
  indices ordered by score, ties by index.  numpy's default quicksort is
  documented non-stable and coincides with this model exactly on its
  small-array insertion-sort path (roughly up to 16 elements), which covers
  every catalog evaluated concretely below; generic theorems below use only
  the score order of the ranking, never the tie order.
* `CountVectorizer(stop_words='english', max_features=...)` is modelled
  after scikit-learn's documented behaviour: lowercase, token pattern
  `\b\w\w+\b` (maximal runs of word characters, length ≥ 2), removal of the
  built-in English stop-word list, alphabetically ordered vocabulary,
  truncated to the `max_features` most frequent terms (ties by the
  alphabetical order the vocabulary is kept in).
-/

/-- One row of `movies_df` (the fields built in `prepare_movie_data`). -/
structure Movie where
  id : String
  title : String
  overview : String
  genres : String
  cast : String
  poster_path : String
  vote_average : ℚ
  release_date : String
  combined_features : String
deriving DecidableEq, Repr

instance : Inhabited Movie :=
  ⟨⟨"", "", "", "", "", "", 0, "", ""⟩⟩

/-- The 5-record fallback catalog of `prepare_movie_data`
(`src/recommender.py` lines 108-114), loaded when the OMDb fetch fails. -/
def fallback_movies : List Movie :=
  [ { id := "tt0372784", title := "Batman Begins",
      overview := "A young Bruce Wayne becomes Batman to fight crime in Gotham.",
      genres := "Action, Adventure, Crime", cast := "Christian Bale, Michael Caine",
      poster_path := "https://m.media-amazon.com/images/M/MV5BMjE3NDcyNDExNF5BMl5BanBnXkFtZTcwMDYwNDk0OA@@._V1_SX300.jpg",
      vote_average := 8.2, release_date := "2005",
      combined_features := "Action Adventure Crime Christian Bale Michael Caine A young Bruce Wayne becomes Batman to fight crime in Gotham." },
    { id := "tt0468569", title := "The Dark Knight",
      overview := "Batman faces the Joker, a criminal mastermind.",
      genres := "Action, Crime, Drama, Thriller", cast := "Christian Bale, Heath Ledger",
      poster_path := "https://m.media-amazon.com/images/M/MV5BMTMxNTMwODM0NF5BMl5BanBnXkFtZTcwODAyMTk2Mw@@._V1_SX300.jpg",
      vote_average := 9.0, release_date := "2008",
      combined_features := "Action Crime Drama Thriller Christian Bale Heath Ledger Batman faces the Joker, a criminal mastermind." },
    { id := "tt1345836", title := "The Dark Knight Rises",
      overview := "Batman returns to save Gotham from Bane.",
      genres := "Action, Crime, Thriller", cast := "Christian Bale, Tom Hardy",
      poster_path := "https://m.media-amazon.com/images/M/MV5BMTk4ODQzNDY3Ml5BMl5BanBnXkFtZTcwODA0NTM4Nw@@._V1_SX300.jpg",
      vote_average := 8.4, release_date := "2012",
      combined_features := "Action Crime Thriller Christian Bale Tom Hardy Batman returns to save Gotham from Bane." },
    { id := "tt0144084", title := "American Psycho",
      overview := "A Wall Street banker leads a double life as a serial killer.",
      genres := "Crime, Drama, Horror", cast := "Christian Bale, Willem Dafoe",
      poster_path := "https://m.media-amazon.com/images/M/MV5BZTM2ZGJmNzktNzc3My00ZWMzLTg0MjItZjBlMWJiNDE0NjZiXkEyXkFqcGc@._V1_SX300.jpg",
      vote_average := 7.6, release_date := "2000",
      combined_features := "Crime Drama Horror Christian Bale Willem Dafoe A Wall Street banker leads a double life as a serial killer." },
    { id := "tt0246578", title := "Donnie Darko",
      overview := "A troubled teenager is plagued by visions of a man in a rabbit costume.",
      genres := "Drama, Sci-Fi, Thriller", cast := "Jake Gyllenhaal, Maggie Gyllenhaal",
      poster_path := "https://m.media-amazon.com/images/M/MV5BZjZlZDlkYTktMmU1My00ZDBiLWE0TAQtNjkzZDFiYTY0ZmMyXkEyXkFqcGc@._V1_SX300.jpg",
      vote_average := 8.0, release_date := "2001",
      combined_features := "Drama Sci-Fi Thriller Jake Gyllenhaal Maggie Gyllenhaal A troubled teenager is plagued by visions of a man in a rabbit costume." } ]

/-! ### Tokenization (`CountVectorizer` analyzer) -/

/-- A regex word character (`\w`): alphanumeric or underscore
(the corpus here is ASCII). -/
def isWordChar (c : Char) : Bool :=
  c.isAlphanum || c == '_'

/-- ASCII lower-casing, as applied by `CountVectorizer` (`lowercase=True`). -/
def asciiLower (c : Char) : Char :=
  if 'A' ≤ c ∧ c ≤ 'Z' then Char.ofNat (c.toNat + 32) else c

/-- Helper for splitting a character list into maximal runs satisfying `p`:
returns the run touching the front of the list plus the remaining runs. -/
def runsAux (p : Char → Bool) : List Char → List Char × List (List Char)
  | [] => ([], [])
  | c :: cs =>
    let r := runsAux p cs
    if p c then (c :: r.1, r.2)
    else ([], if r.1.isEmpty then r.2 else r.1 :: r.2)

/-- Maximal nonempty runs of characters satisfying `p`, in order. -/
def runsOf (p : Char → Bool) (l : List Char) : List (List Char) :=
  let r := runsAux p l
  if r.1.isEmpty then r.2 else r.1 :: r.2

/-- The token pattern `(?u)\b\w\w+\b` applied to the lower-cased text:
maximal word-character runs of length at least 2. -/
def rawTokens (s : String) : List String :=
  ((runsOf isWordChar (s.data.map asciiLower)).filter (fun t => 2 ≤ t.length)).map
    (fun cs => String.mk cs)

/-- scikit-learn's built-in English stop-word list
(`sklearn.feature_extraction.text.ENGLISH_STOP_WORDS`). -/
def stop_words : List String :=
  [ "a", "about", "above", "across", "after", "afterwards", "again", "against",
    "all", "almost", "alone", "along", "already", "also", "although", "always",
    "am", "among", "amongst", "amoungst", "amount", "an", "and", "another",
    "any", "anyhow", "anyone", "anything", "anyway", "anywhere", "are",
    "around", "as", "at", "back", "be", "became", "because", "become",
    "becomes", "becoming", "been", "before", "beforehand", "behind", "being",
    "below", "beside", "besides", "between", "beyond", "bill", "both",
    "bottom", "but", "by", "call", "can", "cannot", "cant", "co", "con",
    "could", "couldnt", "cry", "de", "describe", "detail", "do", "done",
    "down", "due", "during", "each", "eg", "eight", "either", "eleven",
    "else", "elsewhere", "empty", "enough", "etc", "even", "ever", "every",
    "everyone", "everything", "everywhere", "except", "few", "fifteen",
    "fifty", "fill", "find", "fire", "first", "five", "for", "former",
    "formerly", "forty", "found", "four", "from", "front", "full", "further",
    "get", "give", "go", "had", "has", "hasnt", "have", "he", "hence", "her",
    "here", "hereafter", "hereby", "herein", "hereupon", "hers", "herself",
    "him", "himself", "his", "how", "however", "hundred", "i", "ie", "if",
    "in", "inc", "indeed", "interest", "into", "is", "it", "its", "itself",
    "keep", "last", "latter", "latterly", "least", "less", "ltd", "made",
    "many", "may", "me", "meanwhile", "might", "mill", "mine", "more",
    "moreover", "most", "mostly", "move", "much", "must", "my", "myself",
    "name", "namely", "neither", "never", "nevertheless", "next", "nine",
    "no", "nobody", "none", "noone", "nor", "not", "nothing", "now",
    "nowhere", "of", "off", "often", "on", "once", "one", "only", "onto",
    "or", "other", "others", "otherwise", "our", "ours", "ourselves", "out",
    "over", "own", "part", "per", "perhaps", "please", "put", "rather", "re",
    "same", "see", "seem", "seemed", "seeming", "seems", "serious", "several",
    "she", "should", "show", "side", "since", "sincere", "six", "sixty",
    "so", "some", "somehow", "someone", "something", "sometime", "sometimes",
    "somewhere", "still", "such", "system", "take", "ten", "than", "that",
    "the", "their", "them", "themselves", "then", "thence", "there",
    "thereafter", "thereby", "therefore", "therein", "thereupon", "these",
    "they", "thick", "thin", "third", "this", "those", "though", "three",
    "through", "throughout", "thru", "thus", "to", "together", "too", "top",
    "toward", "towards", "twelve", "twenty", "two", "un", "under", "until",
    "up", "upon", "us", "very", "via", "was", "we", "well", "were", "what",
    "whatever", "when", "whence", "whenever", "where", "whereafter",
    "whereas", "whereby", "wherein", "whereupon", "wherever", "whether",
    "which", "while", "whither", "who", "whoever", "whole", "whom", "whose",
    "why", "will", "with", "within", "without", "would", "yet", "you",
    "your", "yours", "yourself", "yourselves" ]

/-- Tokens of one document after stop-word removal: what `CountVectorizer`
counts for one corpus entry. -/
def docTokens (s : String) : List String :=
  (rawTokens s).filter (fun t => !(stop_words.contains t))

/-! ### `build_similarity_matrix` (`src/recommender.py` lines 137-172) -/

/-- Python `str.split()` (no argument): split on whitespace runs,
discarding empty pieces. -/
def pySplit (s : String) : List String :=
  (runsOf (fun c => !c.isWhitespace) s.data).map (fun cs => String.mk cs)

/-- `len(set(" ".join(corpus).split()))`: the number of distinct
whitespace-delimited tokens across the raw corpus (line 154). -/
def distinct_token_count (corpus : List String) : ℕ :=
  ((pySplit (String.intercalate " " corpus)).dedup).length

/-- `max_features = min(5000, len(set(" ".join(corpus).split())))` (line 154). -/
def max_features (corpus : List String) : ℕ :=
  min 5000 (distinct_token_count corpus)

/-- Line 155: `if max_features == 0: max_features = 1` — the cap actually
handed to the vectorizer. -/
def effective_max_features (corpus : List String) : ℕ :=
  if max_features corpus = 0 then 1 else max_features corpus

/-- Byte-lexicographic order on ASCII strings (Python's `<` on the strings
appearing here), used for the vectorizer's alphabetical vocabulary order. -/
def charListLe : List Char → List Char → Bool
  | [], _ => true
  | _ :: _, [] => false
  | a :: as, b :: bs =>
    if a.toNat < b.toNat then true
    else if b.toNat < a.toNat then false
    else charListLe as bs

/-- String order lifted from `charListLe`. -/
def strLe (a b : String) : Bool :=
  charListLe a.data b.data

/-- Total corpus frequency of a term (used by `max_features` truncation). -/
def corpusTermFrequency (docs : List (List String)) (t : String) : ℕ :=
  (docs.map (fun d => d.count t)).sum

/-- The fitted vocabulary: all distinct document tokens in alphabetical
order; when more than `maxf` terms exist, the `maxf` most frequent are kept
(ties resolved toward the alphabetical order the list is kept in), still
alphabetically ordered. -/
def vocabulary (docs : List (List String)) (maxf : ℕ) : List String :=
  let full := List.insertionSort (fun a b => strLe a b = true) ((docs.foldr (· ++ ·) []).dedup)
  if full.length ≤ maxf then full
  else
    List.insertionSort (fun a b => strLe a b = true)
      ((List.insertionSort
          (fun a b => corpusTermFrequency docs b < corpusTermFrequency docs a ∨
            (corpusTermFrequency docs a = corpusTermFrequency docs b ∧ strLe a b = true))
          full).take maxf)

/-- The count vector of one document over the vocabulary. -/
def countVector (vocab : List String) (doc : List String) : List ℕ :=
  vocab.map (fun t => doc.count t)

/-- Dot product of two count vectors. -/
def dotN (a b : List ℕ) : ℕ :=
  ((a.zip b).map (fun p => p.1 * p.2)).sum

/-- `corpus = movies_df['combined_features'].fillna('').astype(str).tolist()`
(line 147); in this model the field is always a present string. -/
def corpusOf (movies : List Movie) : List String :=
  movies.map (·.combined_features)

/-- The vocabulary fitted on a corpus, with the dynamically computed cap. -/
def vocabOf (corpus : List String) : List String :=
  vocabulary (corpus.map docTokens) (effective_max_features corpus)

/-- `vectorized_features = self.vectorizer.fit_transform(corpus)` as exact
count vectors. -/
def vectorsOf (corpus : List String) : List (List ℕ) :=
  corpus.map (fun s => countVector (vocabOf corpus) (docTokens s))

/-- `cosine_similarity(vectorized_features)`: the N×N matrix
`dot(v i, v j) / (sqrt |v i|² * sqrt |v j|²)`; the square-root function of
the value field is passed in (`Real.sqrt` for `α := ℝ`).  With Lean's
`x / 0 = 0` convention a zero-norm row yields similarity 0, matching
scikit-learn's zero-norm handling. -/
def cosineMatrix {α : Type} [LinearOrderedField α] (sqrt : α → α)
    (vecs : List (List ℕ)) : List (List α) :=
  vecs.map (fun vi => vecs.map (fun vj =>
    (dotN vi vj : α) / (sqrt (dotN vi vi : α) * sqrt (dotN vj vj : α))))

/-- `build_similarity_matrix` (lines 137-172).  `none` is the explicit
"no index" state: empty/absent frame (line 172), all-empty corpus
(lines 149-152), or an empty fitted vocabulary — the caught
`ValueError`/empty-shape soft failures (lines 159-169).  When the catalog is
nonempty and the vocabulary is nonempty the shape check of line 161 passes,
so the matrix is produced. -/
def build_similarity_matrix {α : Type} [LinearOrderedField α] (sqrt : α → α)
    (movies : List Movie) : Option (List (List α)) :=
  if movies.isEmpty then none
  else
    let corpus := corpusOf movies
    if corpus.all (fun s => s == "") then none
    else if (vocabOf corpus).isEmpty then none
    else some (cosineMatrix sqrt (vectorsOf corpus))

/-! ### `get_recommendations` (`src/recommender.py` lines 174-215) -/

/-- `self.movies_df[self.movies_df['id'].isin(selected_movie_ids)].index.tolist()`
(line 181): the ascending list of row positions whose id occurs in the
selection. -/
def validSelectedIndices (movies : List Movie) (selected_movie_ids : List String) : List ℕ :=
  (List.range movies.length).filter
    (fun i => selected_movie_ids.contains ((movies.getD i default).id))

/-- `np.mean(self.similarity_matrix[valid_selected_indices, :], axis=0)`
(line 190): per column, the mean of the selected rows.  The matrix built by
`build_similarity_matrix` is square, so the column count is the row count. -/
def avgScores {α : Type} [LinearOrderedField α] (simM : List (List α))
    (rows : List ℕ) : List α :=
  (List.range simM.length).map (fun j =>
    ((rows.map (fun i => ((simM.getD i []).getD j 0))).sum) / (rows.length : α))

/-- Score of column `i` in an aggregate score list. -/
def scoreAt {α : Type} [Zero α] (scores : List α) (i : ℕ) : α :=
  scores.getD i 0

/-- The order used to model `np.argsort`: ascending by score, ties by
ascending index (numpy's sort is stable insertion sort at these sizes). -/
def lexAsc {α : Type} [LinearOrder α] [Zero α] (scores : List α) (i j : ℕ) : Prop :=
  scoreAt scores i < scoreAt scores j ∨ (scoreAt scores i = scoreAt scores j ∧ i ≤ j)

instance lexAscDecidable {α : Type} [LinearOrder α] [Zero α] (scores : List α) :
    DecidableRel (lexAsc scores) := fun i j => by
  unfold lexAsc
  infer_instance

/-- `np.argsort(avg_similarity_scores)` (line 194, before the `[::-1]`).
Ties are placed in ascending-index order, matching numpy exactly on its
small-array insertion-sort path; for larger arrays numpy's quicksort fixes
no tie order, so results proved from this model for arbitrary catalogs must
not depend on the order among equal scores. -/
def argsortAsc {α : Type} [LinearOrder α] [Zero α] (scores : List α) : List ℕ :=
  List.insertionSort (lexAsc scores) (List.range scores.length)

/-- The accumulation loop of lines 199-210: walk the ranking; skip
out-of-range indices (line 200) and already-seen ids (line 206); append,
record the id as seen, and stop once `len(recommendations) >= num_recommendations`
— a check made only after an append.  `cnt` is `len(recommendations)` so
far; the emitted row indices are returned in order. -/
def recWalk (movies : List Movie) (num_recommendations : ℤ) :
    List ℕ → List String → ℕ → List ℕ
  | [], _, _ => []
  | idx :: rest, seen, cnt =>
    if idx < movies.length then
      if seen.contains ((movies.getD idx default).id) then
        recWalk movies num_recommendations rest seen cnt
      else if num_recommendations ≤ (cnt + 1 : ℤ) then [idx]
      else idx :: recWalk movies num_recommendations rest
        (((movies.getD idx default).id) :: seen) (cnt + 1)
    else
      recWalk movies num_recommendations rest seen cnt

/-- `get_recommendations`, at the level of emitted row indices.  Guards of
lines 176-185: no matrix, absent/empty frame, or no valid selected row ⇒
empty result.  `seen_movie_ids` starts as `set(selected_movie_ids)`
(line 197). -/
def recIndices {α : Type} [LinearOrderedField α] (sim : Option (List (List α)))
    (movies : List Movie) (selected_movie_ids : List String)
    (num_recommendations : ℤ) : List ℕ :=
  match sim with
  | none => []
  | some simM =>
    if movies.isEmpty then []
    else
      let valid := validSelectedIndices movies selected_movie_ids
      if valid.isEmpty then []
      else
        recWalk movies num_recommendations
          ((argsortAsc (avgScores simM valid)).reverse) selected_movie_ids 0

/-- `get_recommendations` (lines 174-215): the emitted rows as full records
(`movie_candidate.to_dict()`, line 207). -/
def get_recommendations {α : Type} [LinearOrderedField α] (sim : Option (List (List α)))
    (movies : List Movie) (selected_movie_ids : List String)
    (num_recommendations : ℤ) : List Movie :=
  (recIndices sim movies selected_movie_ids num_recommendations).map
    (fun i => movies.getD i default)

/-! ### Order-theoretic facts about the ranking -/

instance instIsTotalLexAsc {α : Type} [LinearOrder α] [Zero α] (scores : List α) :
    IsTotal ℕ (lexAsc scores) := by
  constructor
  intro i j
  rcases lt_trichotomy (scoreAt scores i) (scoreAt scores j) with h | h | h
  · exact Or.inl (Or.inl h)
  · rcases Nat.le_total i j with hij | hij
    · exact Or.inl (Or.inr ⟨h, hij⟩)
    · exact Or.inr (Or.inr ⟨h.symm, hij⟩)
  · exact Or.inr (Or.inl h)

instance instIsTransLexAsc {α : Type} [LinearOrder α] [Zero α] (scores : List α) :
    IsTrans ℕ (lexAsc scores) := by
  constructor
  rintro i j k (hij | ⟨hij, hij'⟩) (hjk | ⟨hjk, hjk'⟩)
  · exact Or.inl (hij.trans hjk)
  · exact Or.inl (hjk ▸ hij)
  · exact Or.inl (hij ▸ hjk)
  · exact Or.inr ⟨hij.trans hjk, hij'.trans hjk'⟩

instance instIsAntisymmLexAsc {α : Type} [LinearOrder α] [Zero α] (scores : List α) :
    IsAntisymm ℕ (lexAsc scores) := by
  constructor
  rintro i j (hij | ⟨hij, hij'⟩) (hji | ⟨hji, hji'⟩)
  · exact absurd hji (lt_asymm hij)
  · exact absurd hij (hji ▸ lt_irrefl _)
  · exact absurd hji (hij ▸ lt_irrefl _)
  · exact Nat.le_antisymm hij' hji'

theorem argsortAsc_perm {α : Type} [LinearOrder α] [Zero α] (scores : List α) :
    (argsortAsc scores).Perm (List.range scores.length) :=
  List.perm_insertionSort _ _

theorem argsortAsc_sorted {α : Type} [LinearOrder α] [Zero α] (scores : List α) :
    List.Sorted (lexAsc scores) (argsortAsc scores) :=
  List.sorted_insertionSort _ _

theorem argsortAsc_nodup {α : Type} [LinearOrder α] [Zero α] (scores : List α) :
    (argsortAsc scores).Nodup :=
  (argsortAsc_perm scores).symm.nodup (List.nodup_range _)

/-- The reversed argsort (`[::-1]`, line 194) of the model is
pairwise-ordered by strictly descending score, ties by strictly descending
original index.  The tie component is a fact about the stable model (exact
for small arrays only); general statements derived from this lemma should
use only its score component. -/
theorem ranking_pairwise {α : Type} [LinearOrder α] [Zero α] (scores : List α) :
    List.Pairwise
      (fun i j => scoreAt scores j < scoreAt scores i ∨
        (scoreAt scores i = scoreAt scores j ∧ j < i))
      ((argsortAsc scores).reverse) := by
  rw [List.pairwise_reverse]
  have hcomb := (argsortAsc_sorted scores).and (argsortAsc_nodup scores)
  refine hcomb.imp ?_
  rintro i j ⟨hij | ⟨heq, hle⟩, hne⟩
  · exact Or.inl hij
  · exact Or.inr ⟨heq.symm, lt_of_le_of_ne hle hne⟩

/-- The emitted indices are a sublist (ordered selection) of the ranking. -/
theorem recWalk_sublist (movies : List Movie) (n : ℤ) :
    ∀ (ranking : List ℕ) (seen : List String) (cnt : ℕ),
      (recWalk movies n ranking seen cnt).Sublist ranking := by
  intro ranking
  induction ranking with
  | nil => intro seen cnt; simp [recWalk]
  | cons idx rest ih =>
    intro seen cnt
    rw [recWalk]
    by_cases h1 : idx < movies.length
    · rw [if_pos h1]
      by_cases h2 : seen.contains ((movies.getD idx default).id)
      · rw [if_pos h2]; exact (ih seen cnt).cons idx
      · rw [if_neg h2]
        by_cases h3 : n ≤ (cnt + 1 : ℤ)
        · rw [if_pos h3]; exact (List.nil_sublist rest).cons₂ idx
        · rw [if_neg h3]; exact (ih _ _).cons₂ idx
    · rw [if_neg h1]; exact (ih seen cnt).cons idx

/-- `getD` through a `map`, inside bounds. -/
theorem getD_map_of_lt {β γ : Type} (l : List β) (f : β → γ) (i : ℕ)
    (h : i < l.length) (d : β) (e : γ) : (l.map f).getD i e = f (l.getD i d) := by
  rw [List.getD_eq_getElem?_getD, List.getD_eq_getElem?_getD, List.getElem?_map,
    List.getElem?_eq_getElem h]
  simp

/-- `getD` inside bounds is `getElem`. -/
theorem getD_eq_of_lt {β : Type} (l : List β) (i : ℕ) (h : i < l.length) (d : β) :
    l.getD i d = l[i] := by
  rw [List.getD_eq_getElem?_getD, List.getElem?_eq_getElem h]
  rfl

/-- Walk invariant: no emitted row has an id in `seen`, and emitted ids are
pairwise distinct. -/
theorem recWalk_ids (movies : List Movie) (n : ℤ) :
    ∀ (ranking : List ℕ) (seen : List String) (cnt : ℕ),
      (∀ i ∈ recWalk movies n ranking seen cnt, ((movies.getD i default).id) ∉ seen) ∧
      ((recWalk movies n ranking seen cnt).map (fun i => (movies.getD i default).id)).Nodup := by
  intro ranking
  induction ranking with
  | nil => intro seen cnt; simp [recWalk]
  | cons idx rest ih =>
    intro seen cnt
    rw [recWalk]
    by_cases h1 : idx < movies.length
    · rw [if_pos h1]
      by_cases h2 : seen.contains ((movies.getD idx default).id)
      · rw [if_pos h2]; exact ih seen cnt
      · rw [if_neg h2]
        have h2' : ((movies.getD idx default).id) ∉ seen := by simpa using h2
        by_cases h3 : n ≤ (cnt + 1 : ℤ)
        · rw [if_pos h3]
          refine ⟨?_, by simp⟩
          intro i hi
          rcases List.mem_singleton.mp hi with rfl
          exact h2'
        · rw [if_neg h3]
          obtain ⟨ihmem, ihnd⟩ := ih (((movies.getD idx default).id) :: seen) (cnt + 1)
          refine ⟨?_, ?_⟩
          · intro i hi
            rcases List.mem_cons.mp hi with rfl | hi'
            · exact h2'
            · intro hcon
              exact (ihmem i hi') (List.mem_cons_of_mem _ hcon)
          · rw [List.map_cons]
            refine List.nodup_cons.mpr ⟨?_, ihnd⟩
            intro hmem
            rcases List.mem_map.mp hmem with ⟨j, hj, hjid⟩
            exact (ihmem j hj) (hjid ▸ List.mem_cons_self _ _)
    · rw [if_neg h1]; exact ih seen cnt

/-- The walk depends on the seen set only through membership. -/
theorem recWalk_congr_seen (movies : List Movie) (n : ℤ) :
    ∀ (ranking : List ℕ) (seen1 seen2 : List String) (cnt : ℕ),
      (∀ x, x ∈ seen1 ↔ x ∈ seen2) →
      recWalk movies n ranking seen1 cnt = recWalk movies n ranking seen2 cnt := by
  intro ranking
  induction ranking with
  | nil => intro seen1 seen2 cnt h; simp [recWalk]
  | cons idx rest ih =>
    intro seen1 seen2 cnt h
    rw [recWalk, recWalk]
    by_cases h1 : idx < movies.length
    · rw [if_pos h1, if_pos h1]
      have hc : seen1.contains ((movies.getD idx default).id) =
          seen2.contains ((movies.getD idx default).id) := by
        by_cases hx : ((movies.getD idx default).id) ∈ seen1
        · have hx2 : ((movies.getD idx default).id) ∈ seen2 := (h _).mp hx
          have e1 : seen1.contains ((movies.getD idx default).id) = true := by
            simpa using hx
          have e2 : seen2.contains ((movies.getD idx default).id) = true := by
            simpa using hx2
          rw [e1, e2]
        · have hx2 : ((movies.getD idx default).id) ∉ seen2 := fun hm => hx ((h _).mpr hm)
          have e1 : seen1.contains ((movies.getD idx default).id) = false := by
            simpa using hx
          have e2 : seen2.contains ((movies.getD idx default).id) = false := by
            simpa using hx2
          rw [e1, e2]
      by_cases h2 : seen1.contains ((movies.getD idx default).id)
      · rw [if_pos h2, if_pos (hc ▸ h2)]
        exact ih seen1 seen2 cnt h
      · rw [if_neg h2, if_neg (fun hk => h2 (hc ▸ hk))]
        by_cases h3 : n ≤ (cnt + 1 : ℤ)
        · rw [if_pos h3, if_pos h3]
        · rw [if_neg h3, if_neg h3]
          have h' : ∀ x, x ∈ ((movies.getD idx default).id) :: seen1 ↔
              x ∈ ((movies.getD idx default).id) :: seen2 := by
            intro x
            simp only [List.mem_cons]
            exact or_congr Iff.rfl (h x)
          rw [ih _ _ _ h']
    · rw [if_neg h1, if_neg h1]
      exact ih seen1 seen2 cnt h

/-- Length of the walk output: the number of in-range rows carrying a
not-yet-seen id (distinct ids counted once), clipped by the remaining
capacity — which is 1 even when `num_recommendations - cnt` is non-positive,
because the stop test runs only after an append. -/
theorem recWalk_length (movies : List Movie) (n : ℤ) :
    ∀ (ranking : List ℕ) (seen : List String) (cnt : ℕ),
      (recWalk movies n ranking seen cnt).length =
        min ((((ranking.filter (fun i => i < movies.length)).map
            (fun i => (movies.getD i default).id)).toFinset \ seen.toFinset).card)
          (max 1 (n - cnt).toNat) := by
  intro ranking
  induction ranking with
  | nil => intro seen cnt; simp [recWalk]
  | cons idx rest ih =>
    intro seen cnt
    rw [recWalk]
    by_cases h1 : idx < movies.length
    · rw [if_pos h1, List.filter_cons_of_pos (by simpa using h1), List.map_cons,
        List.toFinset_cons]
      by_cases h2 : seen.contains ((movies.getD idx default).id)
      · have h2' : ((movies.getD idx default).id) ∈ seen := by simpa using h2
        rw [if_pos h2, Finset.insert_sdiff_of_mem _ (List.mem_toFinset.mpr h2')]
        exact ih seen cnt
      · have h2' : ((movies.getD idx default).id) ∉ seen := by simpa using h2
        have h2f : ((movies.getD idx default).id) ∉ seen.toFinset := by
          simpa using h2'
        rw [if_neg h2]
        have hins : insert ((movies.getD idx default).id)
              (((rest.filter (fun i => i < movies.length)).map
                (fun i => (movies.getD i default).id)).toFinset) \ seen.toFinset =
            insert ((movies.getD idx default).id)
              ((((rest.filter (fun i => i < movies.length)).map
                (fun i => (movies.getD i default).id)).toFinset) \
                insert ((movies.getD idx default).id) seen.toFinset) := by
          ext y
          simp only [Finset.mem_sdiff, Finset.mem_insert]
          constructor
          · rintro ⟨hy1 | hy2, hy3⟩
            · exact Or.inl hy1
            · by_cases hyx : y = (movies.getD idx default).id
              · exact Or.inl hyx
              · exact Or.inr ⟨hy2, fun hk => absurd hk (by tauto)⟩
          · rintro (hy1 | ⟨hy2, hy3⟩)
            · exact ⟨Or.inl hy1, hy1 ▸ h2f⟩
            · exact ⟨Or.inr hy2, fun hk => hy3 (Or.inr hk)⟩
        have hnotmem : ((movies.getD idx default).id) ∉
            ((((rest.filter (fun i => i < movies.length)).map
              (fun i => (movies.getD i default).id)).toFinset) \
              insert ((movies.getD idx default).id) seen.toFinset) := by
          simp
        by_cases h3 : n ≤ (cnt + 1 : ℤ)
        · rw [if_pos h3]
          have hpos : 0 < (insert ((movies.getD idx default).id)
              (((rest.filter (fun i => i < movies.length)).map
                (fun i => (movies.getD i default).id)).toFinset) \ seen.toFinset).card := by
            rw [hins]
            exact Finset.card_pos.mpr ⟨_, Finset.mem_insert_self _ _⟩
          simp only [List.length_singleton]
          omega
        · rw [if_neg h3]
          have hrec := ih (((movies.getD idx default).id) :: seen) (cnt + 1)
          have hcard : (insert ((movies.getD idx default).id)
              (((rest.filter (fun i => i < movies.length)).map
                (fun i => (movies.getD i default).id)).toFinset) \ seen.toFinset).card =
              ((((rest.filter (fun i => i < movies.length)).map
                (fun i => (movies.getD i default).id)).toFinset) \
                insert ((movies.getD idx default).id) seen.toFinset).card + 1 := by
            rw [hins, Finset.card_insert_of_not_mem hnotmem]
          simp only [List.length_cons, hrec, List.toFinset_cons]
          omega
    · rw [if_neg h1, List.filter_cons_of_neg (by simpa using h1)]
      exact ih seen cnt

/-- Looking up ids along `0..N-1` is just the id column. -/
theorem range_map_id_eq (movies : List Movie) :
    (List.range movies.length).map (fun i => (movies.getD i default).id) =
      movies.map (·.id) := by
  apply List.ext_getElem
  · simp
  · intro i h1 h2
    simp only [List.getElem_map, List.getElem_range]
    rw [getD_eq_of_lt movies i (by simpa using h2) default]

/-- `contains` depends only on membership. -/
theorem contains_congr (l1 l2 : List String) (h : ∀ x, x ∈ l1 ↔ x ∈ l2) (a : String) :
    l1.contains a = l2.contains a := by
  by_cases hx : a ∈ l1
  · have e1 : l1.contains a = true := by simpa using hx
    have e2 : l2.contains a = true := by simpa using (h a).mp hx
    rw [e1, e2]
  · have e1 : l1.contains a = false := by simpa using hx
    have e2 : l2.contains a = false := by simpa using fun hm => hx ((h a).mpr hm)
    rw [e1, e2]

/-- A similarity matrix of the shape `build_similarity_matrix` produces for
a catalog: square of side the catalog size. -/
def isBuiltFor {α : Type} (simM : List (List α)) (movies : List Movie) : Prop :=
  simM.length = movies.length ∧ ∀ r ∈ simM, r.length = movies.length

instance isBuiltForDecidable {α : Type} (simM : List (List α)) (movies : List Movie) :
    Decidable (isBuiltFor simM movies) := by
  unfold isBuiltFor
  infer_instance

/-- On the guard-passing path, `get_recommendations` is the walk over the
reversed argsort of the aggregated scores. -/
theorem recIndices_eq_walk {α : Type} [LinearOrderedField α] (simM : List (List α))
    (movies : List Movie) (selected : List String) (n : ℤ)
    (hvalid : validSelectedIndices movies selected ≠ []) :
    recIndices (some simM) movies selected n =
      recWalk movies n
        ((argsortAsc (avgScores simM (validSelectedIndices movies selected))).reverse)
        selected 0 := by
  have hm : movies.isEmpty = false := by
    cases movies with
    | nil => exact absurd (by simp [validSelectedIndices]) hvalid
    | cons a l => rfl
  have hv : (validSelectedIndices movies selected).isEmpty = false := by
    cases hval : validSelectedIndices movies selected with
    | nil => exact absurd hval hvalid
    | cons a l => rfl
  simp only [recIndices, hm, hv, Bool.false_eq_true, if_false]

/-- C1 (amended): the emitted row indices are pairwise ordered by
non-increasing aggregate score.  The order among items of equal score is
left unspecified: `np.argsort`'s default quicksort is documented
non-stable, so the program fixes no tie order in general.  (On numpy's
small-array insertion-sort path the reversal emits the higher index first —
see `tie_break_counterexample` — which refutes the claim's
lower-index-first rule.) -/
theorem recIndices_scores_nonincreasing {α : Type} [LinearOrderedField α]
    (simM : List (List α)) (movies : List Movie) (selected : List String) (n : ℤ)
    (hvalid : validSelectedIndices movies selected ≠ []) :
    List.Pairwise
      (fun i j =>
        scoreAt (avgScores simM (validSelectedIndices movies selected)) j ≤
          scoreAt (avgScores simM (validSelectedIndices movies selected)) i)
      (recIndices (some simM) movies selected n) := by
  rw [recIndices_eq_walk simM movies selected n hvalid]
  exact List.Pairwise.sublist (recWalk_sublist movies n _ selected 0)
    ((ranking_pairwise _).imp
      (fun h => h.elim le_of_lt (fun hh => le_of_eq hh.1.symm)))

/-- The ranking walked by `get_recommendations` is a permutation of the row
index range of the catalog (for a built, square matrix). -/
theorem ranking_perm_range {α : Type} [LinearOrderedField α]
    (simM : List (List α)) (movies : List Movie) (valid : List ℕ)
    (hlen : simM.length = movies.length) :
    ((argsortAsc (avgScores simM valid)).reverse).Perm (List.range movies.length) := by
  have h1 := argsortAsc_perm (avgScores simM valid)
  have hlen2 : (avgScores simM valid).length = movies.length := by
    simp [avgScores, hlen]
  rw [hlen2] at h1
  exact (List.reverse_perm _).trans h1

/-- Shared length computation for C4 and C10: on the guard-passing path the
result length is the number of distinct catalog ids outside the selection,
clipped by `max 1 n.toNat`. -/
theorem recIndices_length_eq {α : Type} [LinearOrderedField α]
    (simM : List (List α)) (movies : List Movie) (selected : List String) (n : ℤ)
    (hbuilt : isBuiltFor simM movies)
    (hvalid : validSelectedIndices movies selected ≠ []) :
    (recIndices (some simM) movies selected n).length =
      min (((movies.map (·.id)).toFinset \ selected.toFinset).card) (max 1 n.toNat) := by
  rw [recIndices_eq_walk simM movies selected n hvalid, recWalk_length]
  have hperm := ranking_perm_range simM movies
    (validSelectedIndices movies selected) hbuilt.1
  have hall : ∀ i ∈ (argsortAsc
      (avgScores simM (validSelectedIndices movies selected))).reverse,
      i < movies.length := by
    intro i hi
    exact List.mem_range.mp (hperm.subset hi)
  have hfilter : ((argsortAsc
      (avgScores simM (validSelectedIndices movies selected))).reverse).filter
        (fun i => i < movies.length) =
      (argsortAsc (avgScores simM (validSelectedIndices movies selected))).reverse := by
    apply List.filter_eq_self.mpr
    intro a ha
    simpa using hall a ha
  rw [hfilter]
  have hmapperm := hperm.map (fun i => (movies.getD i default).id)
  rw [List.toFinset_eq_of_perm _ _ hmapperm, range_map_id_eq]
  norm_num

/-- Walk invariants lifted through the guards of `get_recommendations`. -/
theorem recIndices_ids {α : Type} [LinearOrderedField α] (sim : Option (List (List α)))
    (movies : List Movie) (selected : List String) (n : ℤ) :
    (∀ i ∈ recIndices sim movies selected n, ((movies.getD i default).id) ∉ selected) ∧
    ((recIndices sim movies selected n).map (fun i => (movies.getD i default).id)).Nodup := by
  match sim with
  | none => simp [recIndices]
  | some simM =>
    by_cases hv : validSelectedIndices movies selected = []
    · simp [recIndices, hv]
    · rw [recIndices_eq_walk simM movies selected n hv]
      exact recWalk_ids movies n _ selected 0

/-- Tiny concrete catalog and matrix used in closed instances. -/
def demoMovies : List Movie :=
  [{ (default : Movie) with id := "a" }, { (default : Movie) with id := "b" }]

/-- A built 2×2 similarity matrix over `ℚ` for `demoMovies`. -/
def demoSim : List (List ℚ) :=
  [[1, 0], [0, 1]]

/-- C3: no returned record carries a selected id, and no two returned
records share an id. -/
theorem self_exclusion_and_distinct {α : Type} [LinearOrderedField α]
    (sim : Option (List (List α))) (movies : List Movie) (selected : List String) (n : ℤ) :
    (∀ m ∈ get_recommendations sim movies selected n, m.id ∉ selected) ∧
    ((get_recommendations sim movies selected n).map (·.id)).Nodup := by
  obtain ⟨h1, h2⟩ := recIndices_ids sim movies selected n
  constructor
  · intro m hm
    rw [get_recommendations] at hm
    rcases List.mem_map.mp hm with ⟨i, hi, rfl⟩
    exact h1 i hi
  · rw [get_recommendations, List.map_map]
    exact h2

/-- Closed instance of C3 on a concrete query. -/
theorem self_exclusion_and_distinct_witness :
    (∀ m ∈ get_recommendations (some demoSim) demoMovies ["a"] 5, m.id ∉ ["a"]) ∧
    ((get_recommendations (some demoSim) demoMovies ["a"] 5).map (·.id)).Nodup :=
  self_exclusion_and_distinct (some demoSim) demoMovies ["a"] 5

/-- C4: with a positive bound, a built matrix and a selection resolving to at
least one row, the result length is `min n (number of eligible items)` —
eligible items being the distinct catalog ids outside the selection. -/
theorem size_bound_length_eq {α : Type} [LinearOrderedField α]
    (simM : List (List α)) (movies : List Movie) (selected : List String) (n : ℤ)
    (hn : 1 ≤ n) (hbuilt : isBuiltFor simM movies)
    (hvalid : validSelectedIndices movies selected ≠ []) :
    (get_recommendations (some simM) movies selected n).length ≤ n.toNat ∧
    (get_recommendations (some simM) movies selected n).length =
      min n.toNat (((movies.map (·.id)).toFinset \ selected.toFinset).card) := by
  have h := recIndices_length_eq simM movies selected n hbuilt hvalid
  rw [get_recommendations, List.length_map, h]
  omega

/-- Closed instance of C4. -/
theorem size_bound_length_eq_witness :
    ((1 : ℤ) ≤ 1 ∧ isBuiltFor demoSim demoMovies ∧
      validSelectedIndices demoMovies ["a"] ≠ []) ∧
    ((get_recommendations (some demoSim) demoMovies ["a"] 1).length ≤ (1 : ℤ).toNat ∧
      (get_recommendations (some demoSim) demoMovies ["a"] 1).length =
        min (1 : ℤ).toNat
          (((demoMovies.map (·.id)).toFinset \ (["a"] : List String).toFinset).card)) :=
  ⟨⟨le_refl 1, by decide, by decide⟩,
   size_bound_length_eq demoSim demoMovies ["a"] 1 (le_refl 1) (by decide) (by decide)⟩

/-- C5: absent index, empty catalog, or a selection matching no catalog row
each produce the empty sequence (no error). -/
theorem guards_empty_result {α : Type} [LinearOrderedField α]
    (sim : Option (List (List α))) (movies : List Movie) (selected : List String) (n : ℤ)
    (h : sim = none ∨ movies = [] ∨ ∀ m ∈ movies, m.id ∉ selected) :
    get_recommendations sim movies selected n = [] := by
  rcases h with rfl | rfl | h
  · rfl
  · cases sim with
    | none => rfl
    | some simM => rfl
  · have hv : validSelectedIndices movies selected = [] := by
      rw [validSelectedIndices]
      rw [List.filter_eq_nil_iff]
      intro i hi
      have hmem : movies.getD i default ∈ movies := by
        rw [getD_eq_of_lt movies i (List.mem_range.mp hi) default]
        exact List.getElem_mem _
      simpa using h _ hmem
    cases sim with
    | none => rfl
    | some simM =>
      by_cases hm : movies.isEmpty = true
      · simp [get_recommendations, recIndices, hm]
      · simp [get_recommendations, recIndices, hm, hv]

/-- Closed instance of C5 (unknown selected id on the fallback catalog,
and an absent index). -/
theorem guards_empty_result_witness :
    ((none : Option (List (List ℚ))) = none ∨ demoMovies = [] ∨
      ∀ m ∈ demoMovies, m.id ∉ (["zzz"] : List String)) ∧
    get_recommendations (none : Option (List (List ℚ))) demoMovies ["zzz"] 5 = [] :=
  ⟨Or.inl rfl, guards_empty_result none demoMovies ["zzz"] 5 (Or.inl rfl)⟩

/-- C6: if every composite feature text is empty, the build fails soft to the
explicit `none` state and every subsequent query returns the empty sequence. -/
theorem empty_corpus_soft_fail {α : Type} [LinearOrderedField α] (sqrt : α → α)
    (movies : List Movie) (h : ∀ m ∈ movies, m.combined_features = "") :
    build_similarity_matrix sqrt movies = none ∧
    ∀ (selected : List String) (n : ℤ),
      get_recommendations (build_similarity_matrix sqrt movies) movies selected n = [] := by
  have hb : build_similarity_matrix sqrt movies = none := by
    cases movies with
    | nil => rfl
    | cons m l =>
      have hall : (corpusOf (m :: l)).all (fun s => s == "") = true := by
        rw [List.all_eq_true]
        intro s hs
        rcases List.mem_map.mp hs with ⟨mm, hmm, rfl⟩
        rw [h mm hmm]
        rfl
      simp [build_similarity_matrix, hall]
  refine ⟨hb, fun selected n => ?_⟩
  rw [hb]
  rfl

/-- Concrete catalog whose only record has empty composite text. -/
def emptyFeatureMovies : List Movie :=
  [{ (default : Movie) with id := "e1" }]

/-- Closed instance of C6. -/
theorem empty_corpus_soft_fail_witness :
    (∀ m ∈ emptyFeatureMovies, m.combined_features = "") ∧
    (build_similarity_matrix (id : ℚ → ℚ) emptyFeatureMovies = none ∧
      ∀ (selected : List String) (n : ℤ),
        get_recommendations (build_similarity_matrix (id : ℚ → ℚ) emptyFeatureMovies)
          emptyFeatureMovies selected n = []) :=
  ⟨by decide, empty_corpus_soft_fail id emptyFeatureMovies (by decide)⟩

/-- C7: for a not-all-empty corpus, the cap handed to the vectorizer is
`min 5000 (distinct whitespace tokens)`, with defensive floor 1 when the
distinct-token count is 0. -/
theorem vectorizer_cap_formula (corpus : List String)
    (h : ¬ corpus.all (fun s => s == "") = true) :
    (0 < distinct_token_count corpus →
      effective_max_features corpus = min 5000 (distinct_token_count corpus)) ∧
    (distinct_token_count corpus = 0 → effective_max_features corpus = 1) := by
  constructor
  · intro h0
    have hne : max_features corpus ≠ 0 := by
      have : max_features corpus = min 5000 (distinct_token_count corpus) := rfl
      omega
    rw [effective_max_features, if_neg hne]
    rfl
  · intro h0
    have hz : max_features corpus = 0 := by
      have : max_features corpus = min 5000 (distinct_token_count corpus) := rfl
      omega
    rw [effective_max_features, if_pos hz]

/-- Closed instance of C7. -/
theorem vectorizer_cap_formula_witness :
    (¬ (["hello world"] : List String).all (fun s => s == "") = true) ∧
    ((0 < distinct_token_count ["hello world"] →
      effective_max_features ["hello world"] =
        min 5000 (distinct_token_count ["hello world"])) ∧
    (distinct_token_count ["hello world"] = 0 →
      effective_max_features ["hello world"] = 1)) :=
  ⟨by decide, vectorizer_cap_formula ["hello world"] (by decide)⟩

/-- C8: the engine is a deterministic function of the catalog snapshot:
identical catalogs yield the identical matrix and identical query output. -/
theorem determinism_of_snapshot {α : Type} [LinearOrderedField α] (sqrt : α → α)
    (movies1 movies2 : List Movie) (h : movies1 = movies2) :
    build_similarity_matrix sqrt movies1 = build_similarity_matrix sqrt movies2 ∧
    ∀ (selected : List String) (n : ℤ),
      get_recommendations (build_similarity_matrix sqrt movies1) movies1 selected n =
        get_recommendations (build_similarity_matrix sqrt movies2) movies2 selected n := by
  subst h
  exact ⟨rfl, fun _ _ => rfl⟩

/-- Closed instance of C8 on the fallback catalog. -/
theorem determinism_of_snapshot_witness :
    (fallback_movies = fallback_movies) ∧
    (build_similarity_matrix (id : ℚ → ℚ) fallback_movies =
        build_similarity_matrix (id : ℚ → ℚ) fallback_movies ∧
      ∀ (selected : List String) (n : ℤ),
        get_recommendations (build_similarity_matrix (id : ℚ → ℚ) fallback_movies)
            fallback_movies selected n =
          get_recommendations (build_similarity_matrix (id : ℚ → ℚ) fallback_movies)
            fallback_movies selected n) :=
  ⟨rfl, determinism_of_snapshot id fallback_movies fallback_movies rfl⟩

/-- C9: the result depends on the selection list only through id
membership — duplicates collapse and order is irrelevant. -/
theorem selection_membership_invariance {α : Type} [LinearOrderedField α]
    (sim : Option (List (List α))) (movies : List Movie)
    (sel1 sel2 : List String) (n : ℤ) (h : ∀ x, x ∈ sel1 ↔ x ∈ sel2) :
    get_recommendations sim movies sel1 n = get_recommendations sim movies sel2 n := by
  have hv : validSelectedIndices movies sel1 = validSelectedIndices movies sel2 := by
    rw [validSelectedIndices, validSelectedIndices]
    exact List.filter_congr (fun i _ => contains_congr sel1 sel2 h _)
  rw [get_recommendations, get_recommendations]
  congr 1
  match sim with
  | none => rfl
  | some simM =>
    by_cases hval : validSelectedIndices movies sel2 = []
    · have hval1 : validSelectedIndices movies sel1 = [] := hv.trans hval
      by_cases hm : movies.isEmpty = true
      · simp [recIndices, hm]
      · simp [recIndices, hm, hval, hval1]
    · have hval1 : validSelectedIndices movies sel1 ≠ [] := by
        rw [hv]; exact hval
      rw [recIndices_eq_walk simM movies sel1 n hval1,
        recIndices_eq_walk simM movies sel2 n hval, hv]
      exact recWalk_congr_seen movies n _ sel1 sel2 0 h

/-- Closed instance of C9: permuted selection with a duplicate. -/
theorem selection_membership_invariance_witness :
    (∀ x, x ∈ (["a", "b"] : List String) ↔ x ∈ (["b", "a", "a"] : List String)) ∧
    get_recommendations (some demoSim) demoMovies ["a", "b"] 5 =
      get_recommendations (some demoSim) demoMovies ["b", "a", "a"] 5 :=
  ⟨fun x => by constructor <;> (intro hx; simp only [List.mem_cons] at hx ⊢; tauto),
   selection_membership_invariance (some demoSim) demoMovies ["a", "b"] ["b", "a", "a"] 5
     (fun x => by constructor <;> (intro hx; simp only [List.mem_cons] at hx ⊢; tauto))⟩

/-- C10: a non-positive bound still returns exactly one item when the matrix
is built, the selection resolves, and an eligible item exists — the stop
test `len(recommendations) >= num_recommendations` runs only after an
append. -/
theorem nonpositive_bound_one_item {α : Type} [LinearOrderedField α]
    (simM : List (List α)) (movies : List Movie) (selected : List String) (n : ℤ)
    (hn : n ≤ 0) (hbuilt : isBuiltFor simM movies)
    (hvalid : validSelectedIndices movies selected ≠ [])
    (helig : ∃ m ∈ movies, m.id ∉ selected) :
    (get_recommendations (some simM) movies selected n).length = 1 := by
  have h := recIndices_length_eq simM movies selected n hbuilt hvalid
  rw [get_recommendations, List.length_map, h]
  obtain ⟨m, hm, hid⟩ := helig
  have hcard : 0 < (((movies.map (·.id)).toFinset \ selected.toFinset).card) := by
    apply Finset.card_pos.mpr
    refine ⟨m.id, Finset.mem_sdiff.mpr ⟨?_, ?_⟩⟩
    · exact List.mem_toFinset.mpr (List.mem_map.mpr ⟨m, hm, rfl⟩)
    · simpa using hid
  omega

/-- Closed instance of C10 with bound 0. -/
theorem nonpositive_bound_one_item_witness :
    ((0 : ℤ) ≤ 0 ∧ isBuiltFor demoSim demoMovies ∧
      validSelectedIndices demoMovies ["a"] ≠ [] ∧
      ∃ m ∈ demoMovies, m.id ∉ (["a"] : List String)) ∧
    (get_recommendations (some demoSim) demoMovies ["a"] 0).length = 1 :=
  ⟨⟨le_refl 0, by decide, by decide, by decide⟩,
   nonpositive_bound_one_item demoSim demoMovies ["a"] 0 (le_refl 0)
     (by decide) (by decide) (by decide)⟩

/-- Closed instance of the amended C1 ordering property. -/
theorem recIndices_scores_nonincreasing_witness :
    (validSelectedIndices demoMovies ["a"] ≠ []) ∧
    List.Pairwise
      (fun i j =>
        scoreAt (avgScores demoSim (validSelectedIndices demoMovies ["a"])) j ≤
          scoreAt (avgScores demoSim (validSelectedIndices demoMovies ["a"])) i)
      (recIndices (some demoSim) demoMovies ["a"] 5) :=
  ⟨by decide, recIndices_scores_nonincreasing demoSim demoMovies ["a"] 5 (by decide)⟩

/-! ### The fallback-catalog pipeline, exactly -/

/-- The count vectors the vectorizer produces on the fallback corpus over its
49-term vocabulary (verified against the model below by kernel computation). -/
def fbVectors : List (List ℕ) :=
  [ [1, 1, 1, 0, 0, 1, 1, 1, 1, 0, 2, 0, 0, 0, 0, 0, 0, 1, 1, 0, 0, 0, 0, 0, 0,
     0, 0, 0, 0, 0, 0, 0, 1, 0, 0, 0, 0, 0, 0, 0, 0, 0, 0, 0, 0, 0, 1, 0, 1],
    [1, 0, 1, 0, 0, 1, 0, 0, 1, 0, 1, 1, 0, 0, 1, 1, 0, 0, 0, 0, 0, 1, 0, 0, 1,
     0, 0, 1, 0, 0, 0, 1, 0, 0, 0, 0, 0, 0, 0, 0, 0, 1, 0, 0, 0, 0, 0, 0, 0],
    [1, 0, 1, 1, 0, 1, 0, 0, 1, 0, 1, 0, 0, 0, 0, 0, 0, 0, 1, 0, 1, 0, 0, 0, 0,
     0, 0, 0, 0, 0, 0, 0, 0, 0, 0, 1, 1, 0, 0, 0, 0, 1, 1, 0, 0, 0, 0, 0, 0],
    [0, 0, 1, 0, 1, 0, 0, 0, 1, 0, 1, 0, 1, 1, 1, 0, 0, 0, 0, 0, 0, 0, 1, 0, 0,
     1, 1, 0, 1, 0, 0, 0, 0, 0, 0, 0, 0, 0, 1, 1, 0, 0, 0, 0, 0, 1, 0, 1, 0],
    [0, 0, 0, 0, 0, 0, 0, 0, 0, 1, 0, 0, 0, 0, 1, 0, 1, 0, 0, 2, 0, 0, 0, 1, 0,
     0, 0, 0, 0, 1, 1, 0, 0, 1, 1, 0, 0, 1, 0, 0, 1, 1, 0, 1, 1, 0, 0, 0, 0] ]

set_option maxRecDepth 8000 in
/-- The vectorizer model evaluates on the fallback corpus to `fbVectors`. -/
theorem fb_vectors_eq : vectorsOf (corpusOf fallback_movies) = fbVectors := by
  decide

set_option maxRecDepth 8000 in
/-- The fitted vocabulary on the fallback corpus is nonempty (49 terms), so
the build does not fail soft. -/
theorem fb_vocab_nonempty : (vocabOf (corpusOf fallback_movies)).isEmpty = false := by
  decide

/-- `build_similarity_matrix` on the fallback catalog produces the cosine
matrix of the fallback count vectors. -/
theorem fb_build_eq :
    build_similarity_matrix (α := ℝ) Real.sqrt fallback_movies =
      some (cosineMatrix Real.sqrt fbVectors) := by
  have h1 : fallback_movies.isEmpty = false := rfl
  have h2 : (corpusOf fallback_movies).all (fun s => s == "") = false := by decide
  simp only [build_similarity_matrix, h1, h2, fb_vocab_nonempty, Bool.false_eq_true,
    if_false, fb_vectors_eq]

/-- Entry formula of the modelled cosine matrix. -/
theorem cosineMatrix_entry {α : Type} [LinearOrderedField α] (sqrt : α → α)
    (vecs : List (List ℕ)) (i j : ℕ) (hi : i < vecs.length) (hj : j < vecs.length) :
    ((cosineMatrix sqrt vecs).getD i []).getD j 0 =
      (dotN (vecs.getD i []) (vecs.getD j []) : α) /
        (sqrt (dotN (vecs.getD i []) (vecs.getD i []) : α) *
          sqrt (dotN (vecs.getD j []) (vecs.getD j []) : α)) := by
  rw [cosineMatrix]
  rw [getD_map_of_lt vecs _ i hi []]
  rw [getD_map_of_lt vecs _ j hj []]

/-- Stable ascending argsort of five scores with `a4 < a3 < a2 < a0 = a1`. -/
theorem argsortAsc_five {α : Type} [LinearOrder α] [Zero α] (a0 a1 a2 a3 a4 : α)
    (h01 : a0 = a1) (h20 : a2 < a0) (h32 : a3 < a2) (h43 : a4 < a3) :
    argsortAsc [a0, a1, a2, a3, a4] = [4, 3, 2, 0, 1] := by
  have h30 : a3 < a0 := h32.trans h20
  have h40 : a4 < a0 := h43.trans h30
  have h42 : a4 < a2 := h43.trans h32
  have hperm : (argsortAsc [a0, a1, a2, a3, a4]).Perm ([4, 3, 2, 0, 1] : List ℕ) := by
    refine (argsortAsc_perm _).trans ?_
    show (List.range 5).Perm [4, 3, 2, 0, 1]
    decide
  have hs2 : List.Sorted (lexAsc [a0, a1, a2, a3, a4]) [4, 3, 2, 0, 1] := by
    refine List.Pairwise.cons ?_ (List.Pairwise.cons ?_ (List.Pairwise.cons ?_
      (List.Pairwise.cons ?_ (List.pairwise_singleton _ _))))
    · intro b hb
      fin_cases hb
      · exact Or.inl h43
      · exact Or.inl h42
      · exact Or.inl h40
      · exact Or.inl (h01 ▸ h40)
    · intro b hb
      fin_cases hb
      · exact Or.inl h32
      · exact Or.inl h30
      · exact Or.inl (h01 ▸ h30)
    · intro b hb
      fin_cases hb
      · exact Or.inl h20
      · exact Or.inl (h01 ▸ h20)
    · intro b hb
      fin_cases hb
      · exact Or.inr ⟨h01, by norm_num⟩
  exact List.eq_of_perm_of_sorted hperm (argsortAsc_sorted _) hs2

/-- Stable ascending argsort of three scores with `a1 = a2 < a0`. -/
theorem argsortAsc_three {α : Type} [LinearOrder α] [Zero α] (a0 a1 a2 : α)
    (h12 : a1 = a2) (h10 : a1 < a0) :
    argsortAsc [a0, a1, a2] = [1, 2, 0] := by
  have hperm : (argsortAsc [a0, a1, a2]).Perm ([1, 2, 0] : List ℕ) := by
    refine (argsortAsc_perm _).trans ?_
    show (List.range 3).Perm [1, 2, 0]
    decide
  have hs2 : List.Sorted (lexAsc [a0, a1, a2]) [1, 2, 0] := by
    refine List.Pairwise.cons ?_ (List.Pairwise.cons ?_ (List.pairwise_singleton _ _))
    · intro b hb
      fin_cases hb
      · exact Or.inr ⟨h12, by norm_num⟩
      · exact Or.inl h10
    · intro b hb
      fin_cases hb
      · exact Or.inl (h12 ▸ h10)
  exact List.eq_of_perm_of_sorted hperm (argsortAsc_sorted _) hs2

set_option maxHeartbeats 2000000 in
/-- C2: on the fallback catalog, selecting the two Batman films
(`tt0372784`, `tt0468569`) with any bound `n ≥ 3` returns exactly rows
2, 3, 4 in that order: `tt1345836` (The Dark Knight Rises) ranked before
`tt0144084` (American Psycho) ranked before `tt0246578` (Donnie Darko), and
both selected ids excluded. -/
theorem fallback_scenario_ranking (n : ℤ) (hn : 3 ≤ n) :
    get_recommendations (build_similarity_matrix Real.sqrt fallback_movies)
        fallback_movies ["tt0372784", "tt0468569"] n =
      [fallback_movies.getD 2 default, fallback_movies.getD 3 default,
        fallback_movies.getD 4 default] := by
  rw [fb_build_eq, get_recommendations]
  have hvalid : validSelectedIndices fallback_movies ["tt0372784", "tt0468569"] = [0, 1] := by
    decide
  have hvne : validSelectedIndices fallback_movies ["tt0372784", "tt0468569"] ≠ [] := by
    rw [hvalid]; simp
  rw [recIndices_eq_walk _ _ _ _ hvne, hvalid]
  have hlen : (cosineMatrix (α := ℝ) Real.sqrt fbVectors).length = 5 := by
    simp [cosineMatrix, fbVectors]
  have havg : avgScores (cosineMatrix (α := ℝ) Real.sqrt fbVectors) [0, 1] =
      [((16 : ℝ) / (Real.sqrt 16 * Real.sqrt 16) + ((6 : ℝ) / (Real.sqrt 13 * Real.sqrt 16) + 0)) / 2,
       ((6 : ℝ) / (Real.sqrt 16 * Real.sqrt 13) + ((13 : ℝ) / (Real.sqrt 13 * Real.sqrt 13) + 0)) / 2,
       ((7 : ℝ) / (Real.sqrt 16 * Real.sqrt 12) + ((6 : ℝ) / (Real.sqrt 13 * Real.sqrt 12) + 0)) / 2,
       ((4 : ℝ) / (Real.sqrt 16 * Real.sqrt 15) + ((4 : ℝ) / (Real.sqrt 13 * Real.sqrt 15) + 0)) / 2,
       ((0 : ℝ) / (Real.sqrt 16 * Real.sqrt 17) + ((2 : ℝ) / (Real.sqrt 13 * Real.sqrt 17) + 0)) / 2] := by
    rw [avgScores, hlen]
    rw [show List.range 5 = [0, 1, 2, 3, 4] from rfl]
    simp only [List.map_cons, List.map_nil, List.sum_cons, List.sum_nil, List.length_cons,
      List.length_nil]
    rw [cosineMatrix_entry Real.sqrt fbVectors 0 0 (by decide) (by decide),
      cosineMatrix_entry Real.sqrt fbVectors 1 0 (by decide) (by decide),
      cosineMatrix_entry Real.sqrt fbVectors 0 1 (by decide) (by decide),
      cosineMatrix_entry Real.sqrt fbVectors 1 1 (by decide) (by decide),
      cosineMatrix_entry Real.sqrt fbVectors 0 2 (by decide) (by decide),
      cosineMatrix_entry Real.sqrt fbVectors 1 2 (by decide) (by decide),
      cosineMatrix_entry Real.sqrt fbVectors 0 3 (by decide) (by decide),
      cosineMatrix_entry Real.sqrt fbVectors 1 3 (by decide) (by decide),
      cosineMatrix_entry Real.sqrt fbVectors 0 4 (by decide) (by decide),
      cosineMatrix_entry Real.sqrt fbVectors 1 4 (by decide) (by decide)]
    rw [show dotN (fbVectors.getD 0 []) (fbVectors.getD 0 []) = 16 from by decide,
      show dotN (fbVectors.getD 1 []) (fbVectors.getD 1 []) = 13 from by decide,
      show dotN (fbVectors.getD 2 []) (fbVectors.getD 2 []) = 12 from by decide,
      show dotN (fbVectors.getD 3 []) (fbVectors.getD 3 []) = 15 from by decide,
      show dotN (fbVectors.getD 4 []) (fbVectors.getD 4 []) = 17 from by decide,
      show dotN (fbVectors.getD 0 []) (fbVectors.getD 1 []) = 6 from by decide,
      show dotN (fbVectors.getD 1 []) (fbVectors.getD 0 []) = 6 from by decide,
      show dotN (fbVectors.getD 0 []) (fbVectors.getD 2 []) = 7 from by decide,
      show dotN (fbVectors.getD 1 []) (fbVectors.getD 2 []) = 6 from by decide,
      show dotN (fbVectors.getD 0 []) (fbVectors.getD 3 []) = 4 from by decide,
      show dotN (fbVectors.getD 1 []) (fbVectors.getD 3 []) = 4 from by decide,
      show dotN (fbVectors.getD 0 []) (fbVectors.getD 4 []) = 0 from by decide,
      show dotN (fbVectors.getD 1 []) (fbVectors.getD 4 []) = 2 from by decide]
    push_cast
    norm_num
  have h16 : Real.sqrt 16 = 4 := by
    rw [show (16 : ℝ) = 4 ^ 2 by norm_num, Real.sqrt_sq (by norm_num)]
  have h13sq : Real.sqrt 13 * Real.sqrt 13 = 13 := Real.mul_self_sqrt (by norm_num)
  have h13l : (3.6 : ℝ) < Real.sqrt 13 := (Real.lt_sqrt (by norm_num)).mpr (by norm_num)
  have h13u : Real.sqrt 13 < 3.61 := (Real.sqrt_lt' (by norm_num)).mpr (by norm_num)
  have h12l : (3.46 : ℝ) < Real.sqrt 12 := (Real.lt_sqrt (by norm_num)).mpr (by norm_num)
  have h12u : Real.sqrt 12 < 3.47 := (Real.sqrt_lt' (by norm_num)).mpr (by norm_num)
  have h15l : (3.87 : ℝ) < Real.sqrt 15 := (Real.lt_sqrt (by norm_num)).mpr (by norm_num)
  have h15u : Real.sqrt 15 < 3.88 := (Real.sqrt_lt' (by norm_num)).mpr (by norm_num)
  have h17l : (4.12 : ℝ) < Real.sqrt 17 := (Real.lt_sqrt (by norm_num)).mpr (by norm_num)
  have h01 : ((16 : ℝ) / (Real.sqrt 16 * Real.sqrt 16) + ((6 : ℝ) / (Real.sqrt 13 * Real.sqrt 16) + 0)) / 2 =
      ((6 : ℝ) / (Real.sqrt 16 * Real.sqrt 13) + ((13 : ℝ) / (Real.sqrt 13 * Real.sqrt 13) + 0)) / 2 := by
    rw [h16, h13sq]
    ring_nf
  have h20 : ((7 : ℝ) / (Real.sqrt 16 * Real.sqrt 12) + ((6 : ℝ) / (Real.sqrt 13 * Real.sqrt 12) + 0)) / 2 <
      ((16 : ℝ) / (Real.sqrt 16 * Real.sqrt 16) + ((6 : ℝ) / (Real.sqrt 13 * Real.sqrt 16) + 0)) / 2 := by
    rw [h16]
    have e1 : (7 : ℝ) / (4 * Real.sqrt 12) < 0.51 := by
      rw [div_lt_iff₀ (by positivity)]
      nlinarith [h12l]
    have e2 : (6 : ℝ) / (Real.sqrt 13 * Real.sqrt 12) < 0.49 := by
      rw [div_lt_iff₀ (by positivity)]
      nlinarith [h13l, h12l]
    have e3 : (0 : ℝ) < 6 / (Real.sqrt 13 * 4) := by positivity
    norm_num
    linarith
  have h32 : ((4 : ℝ) / (Real.sqrt 16 * Real.sqrt 15) + ((4 : ℝ) / (Real.sqrt 13 * Real.sqrt 15) + 0)) / 2 <
      ((7 : ℝ) / (Real.sqrt 16 * Real.sqrt 12) + ((6 : ℝ) / (Real.sqrt 13 * Real.sqrt 12) + 0)) / 2 := by
    rw [h16]
    have f1 : (4 : ℝ) / (4 * Real.sqrt 15) < 0.26 := by
      rw [div_lt_iff₀ (by positivity)]
      nlinarith [h15l]
    have f2 : (4 : ℝ) / (Real.sqrt 13 * Real.sqrt 15) < 0.29 := by
      rw [div_lt_iff₀ (by positivity)]
      nlinarith [h13l, h15l]
    have f3 : (0.5 : ℝ) < 7 / (4 * Real.sqrt 12) := by
      rw [lt_div_iff₀ (by positivity)]
      nlinarith [h12u]
    have f4 : (0.4 : ℝ) < 6 / (Real.sqrt 13 * Real.sqrt 12) := by
      rw [lt_div_iff₀ (by positivity)]
      nlinarith [h13u, h12u, Real.sqrt_nonneg 13, Real.sqrt_nonneg 12]
    linarith
  have h43 : ((0 : ℝ) / (Real.sqrt 16 * Real.sqrt 17) + ((2 : ℝ) / (Real.sqrt 13 * Real.sqrt 17) + 0)) / 2 <
      ((4 : ℝ) / (Real.sqrt 16 * Real.sqrt 15) + ((4 : ℝ) / (Real.sqrt 13 * Real.sqrt 15) + 0)) / 2 := by
    rw [h16]
    have g1 : (2 : ℝ) / (Real.sqrt 13 * Real.sqrt 17) < 0.14 := by
      rw [div_lt_iff₀ (by positivity)]
      nlinarith [h13l, h17l]
    have g2 : (0.25 : ℝ) < 4 / (4 * Real.sqrt 15) := by
      rw [lt_div_iff₀ (by positivity)]
      nlinarith [h15u]
    have g3 : (0 : ℝ) < 4 / (Real.sqrt 13 * Real.sqrt 15) := by positivity
    norm_num
    linarith
  have hsort := argsortAsc_five _ _ _ _ _ h01 h20 h32 h43
  rw [havg, hsort]
  rw [show ([4, 3, 2, 0, 1] : List ℕ).reverse = [1, 0, 2, 3, 4] from rfl]
  rw [recWalk, if_pos (show (1 : ℕ) < fallback_movies.length by decide),
    if_pos (show ((["tt0372784", "tt0468569"] : List String).contains
      ((fallback_movies.getD 1 default).id)) = true by decide)]
  rw [recWalk, if_pos (show (0 : ℕ) < fallback_movies.length by decide),
    if_pos (show ((["tt0372784", "tt0468569"] : List String).contains
      ((fallback_movies.getD 0 default).id)) = true by decide)]
  rw [recWalk, if_pos (show (2 : ℕ) < fallback_movies.length by decide),
    if_neg (show ¬ ((["tt0372784", "tt0468569"] : List String).contains
      ((fallback_movies.getD 2 default).id)) = true by decide),
    if_neg (show ¬ (n ≤ ((0 : ℕ) + 1 : ℤ)) by push_cast; omega)]
  rw [recWalk, if_pos (show (3 : ℕ) < fallback_movies.length by decide),
    if_neg (by decide),
    if_neg (show ¬ (n ≤ ((1 : ℕ) + 1 : ℤ)) by push_cast; omega)]
  rw [recWalk, if_pos (show (4 : ℕ) < fallback_movies.length by decide),
    if_neg (by decide)]
  by_cases h4 : n ≤ ((2 : ℕ) + 1 : ℤ)
  · rw [if_pos h4]
    simp only [List.map_cons, List.map_nil]
  · rw [if_neg h4, recWalk]
    simp only [List.map_cons, List.map_nil]

/-- Closed instance of C2 at `n = 3`. -/
theorem fallback_scenario_ranking_witness :
    (3 : ℤ) ≤ 3 ∧
    get_recommendations (build_similarity_matrix Real.sqrt fallback_movies)
        fallback_movies ["tt0372784", "tt0468569"] 3 =
      [fallback_movies.getD 2 default, fallback_movies.getD 3 default,
        fallback_movies.getD 4 default] :=
  ⟨le_refl 3, fallback_scenario_ranking 3 (le_refl 3)⟩

/-- A catalog whose built matrix has a genuine score tie: rows 1 and 2 have
identical composite features, so both score 0 against the selection of row 0. -/
def cex_movies : List Movie :=
  [{ (default : Movie) with id := "x", combined_features := "alpha beta" },
   { (default : Movie) with id := "y", combined_features := "gamma delta" },
   { (default : Movie) with id := "z", combined_features := "gamma delta" }]

/-- Count vectors of `cex_movies` over its vocabulary
`[alpha, beta, delta, gamma]` (checked below by kernel computation). -/
def cexVectors : List (List ℕ) :=
  [[1, 1, 0, 0], [0, 0, 1, 1], [0, 0, 1, 1]]

/-- The vectorizer model evaluates on the tie catalog to `cexVectors`. -/
theorem cex_vectors_eq : vectorsOf (corpusOf cex_movies) = cexVectors := by decide

/-- The build on the tie catalog produces the cosine matrix of `cexVectors`. -/
theorem cex_build_eq :
    build_similarity_matrix (α := ℝ) Real.sqrt cex_movies =
      some (cosineMatrix Real.sqrt cexVectors) := by
  have h1 : cex_movies.isEmpty = false := rfl
  have h2 : (corpusOf cex_movies).all (fun s => s == "") = false := by decide
  have h3 : (vocabOf (corpusOf cex_movies)).isEmpty = false := by decide
  simp only [build_similarity_matrix, h1, h2, h3, Bool.false_eq_true, if_false,
    cex_vectors_eq]

set_option maxHeartbeats 1000000 in
/-- C1 as stated is false on the code: on the built matrix of `cex_movies`
with selection `["x"]`, rows 1 and 2 have equal aggregate score, yet the
result emits row 2 before row 1 — the *higher* original catalog index wins
the tie (the code reverses a stable ascending argsort), so the
lower-index-first tie-break of the claim fails. -/
theorem tie_break_counterexample :
    recIndices (build_similarity_matrix Real.sqrt cex_movies) cex_movies ["x"] 5 = [2, 1] ∧
    scoreAt (avgScores ((build_similarity_matrix Real.sqrt cex_movies).getD [])
        (validSelectedIndices cex_movies ["x"])) 1 =
      scoreAt (avgScores ((build_similarity_matrix Real.sqrt cex_movies).getD [])
        (validSelectedIndices cex_movies ["x"])) 2 ∧
    ¬ List.Pairwise
        (fun i j =>
          scoreAt (avgScores ((build_similarity_matrix Real.sqrt cex_movies).getD [])
              (validSelectedIndices cex_movies ["x"])) j <
            scoreAt (avgScores ((build_similarity_matrix Real.sqrt cex_movies).getD [])
              (validSelectedIndices cex_movies ["x"])) i ∨
          (scoreAt (avgScores ((build_similarity_matrix Real.sqrt cex_movies).getD [])
              (validSelectedIndices cex_movies ["x"])) i =
            scoreAt (avgScores ((build_similarity_matrix Real.sqrt cex_movies).getD [])
              (validSelectedIndices cex_movies ["x"])) j ∧ i < j))
        (recIndices (build_similarity_matrix Real.sqrt cex_movies) cex_movies ["x"] 5) := by
  have hvalid : validSelectedIndices cex_movies ["x"] = [0] := by decide
  have hvne : validSelectedIndices cex_movies ["x"] ≠ [] := by rw [hvalid]; simp
  have hlen : (cosineMatrix (α := ℝ) Real.sqrt cexVectors).length = 3 := by
    simp [cosineMatrix, cexVectors]
  have havg : avgScores (cosineMatrix (α := ℝ) Real.sqrt cexVectors) [0] =
      [(2 : ℝ) / (Real.sqrt 2 * Real.sqrt 2), 0, 0] := by
    rw [avgScores, hlen]
    rw [show List.range 3 = [0, 1, 2] from rfl]
    simp only [List.map_cons, List.map_nil, List.sum_cons, List.sum_nil, List.length_cons,
      List.length_nil]
    rw [cosineMatrix_entry Real.sqrt cexVectors 0 0 (by decide) (by decide),
      cosineMatrix_entry Real.sqrt cexVectors 0 1 (by decide) (by decide),
      cosineMatrix_entry Real.sqrt cexVectors 0 2 (by decide) (by decide)]
    rw [show dotN (cexVectors.getD 0 []) (cexVectors.getD 0 []) = 2 from by decide,
      show dotN (cexVectors.getD 0 []) (cexVectors.getD 1 []) = 0 from by decide,
      show dotN (cexVectors.getD 0 []) (cexVectors.getD 2 []) = 0 from by decide]
    push_cast
    norm_num
  have h2sq : Real.sqrt 2 * Real.sqrt 2 = 2 := Real.mul_self_sqrt (by norm_num)
  have h10 : (0 : ℝ) < 2 / (Real.sqrt 2 * Real.sqrt 2) := by
    rw [h2sq]
    norm_num
  have hsort := argsortAsc_three ((2 : ℝ) / (Real.sqrt 2 * Real.sqrt 2)) 0 0 rfl h10
  have hrec : recIndices (build_similarity_matrix Real.sqrt cex_movies) cex_movies ["x"] 5 =
      [2, 1] := by
    rw [cex_build_eq, recIndices_eq_walk _ _ _ _ hvne, hvalid, havg, hsort]
    rw [show ([1, 2, 0] : List ℕ).reverse = [0, 2, 1] from rfl]
    rw [recWalk, if_pos (show (0 : ℕ) < cex_movies.length by decide),
      if_pos (show ((["x"] : List String).contains ((cex_movies.getD 0 default).id)) = true by decide)]
    rw [recWalk, if_pos (show (2 : ℕ) < cex_movies.length by decide),
      if_neg (show ¬ ((["x"] : List String).contains ((cex_movies.getD 2 default).id)) = true by decide),
      if_neg (show ¬ ((5 : ℤ) ≤ ((0 : ℕ) + 1 : ℤ)) by norm_num)]
    rw [recWalk, if_pos (by decide), if_neg (by decide), if_neg (by norm_num)]
    rw [recWalk]
  have hscores : scoreAt (avgScores ((build_similarity_matrix (α := ℝ) Real.sqrt cex_movies).getD [])
      (validSelectedIndices cex_movies ["x"])) 1 =
      scoreAt (avgScores ((build_similarity_matrix (α := ℝ) Real.sqrt cex_movies).getD [])
      (validSelectedIndices cex_movies ["x"])) 2 := by
    rw [cex_build_eq]
    simp only [Option.getD_some]
    rw [hvalid, havg]
    rfl
  refine ⟨hrec, hscores, ?_⟩
  intro hpw
  rw [hrec] at hpw
  have h21 := List.rel_of_pairwise_cons hpw (List.mem_singleton.mpr rfl)
  rw [cex_build_eq] at h21
  simp only [Option.getD_some] at h21
  rw [hvalid, havg] at h21
  rcases h21 with hlt | ⟨heq, hij⟩
  · exact absurd hlt (by simp [scoreAt])
  · omega
